import Mathlib

/-!
Shallow embedding of `cofounder/api/src/analyzers/project_analyzer.py`
(class `ProjectAnalyzer`) and proofs about its four extraction passes and
blueprint assembly.

Modelling conventions:
* A Python file reached by a glob pattern is modelled by its path relative to
  the project root together with a `FileData` value describing what happens
  when the pass touches it.  In the source, `open(file)` is executed OUTSIDE
  the per-file `try` block, while reading/parsing happens INSIDE the `try`.
  Hence `FileData.openError` models an exception escaping the pass (the pass
  returns `Except.error` carrying the state accumulated so far), while
  `FileData.parseError` models an exception caught by the pass-local
  `except: continue` (the file is skipped).
* Python dicts are association lists with `dictInsert` (update-in-place on an
  existing key, append otherwise), matching insertion-order semantics.
* `ast` nodes are modelled by the fields the source actually reads:
  a decorator callee by its `ast.unparse` text and optional `.attr`;
  a class base by `some id` when it is an `ast.Name`; an `ast.AnnAssign`
  target by `some id` when it has an `.id` (otherwise `child.target.id`
  raises `AttributeError` inside the `try`); a decorator positional argument
  by `some s` when `ast.literal_eval` succeeds on it (rendered as the string
  interpolated into the f-string key), `none` when `literal_eval` raises.
-/

/-- `needle` is a prefix of `hay`, on character lists. -/
def isPrefixList : List Char → List Char → Bool
  | [], _ => true
  | _ :: _, [] => false
  | a :: as, b :: bs => a = b && isPrefixList as bs

/-- `needle` occurs contiguously in `hay`, on character lists. -/
def isInfixList (needle : List Char) : List Char → Bool
  | [] => needle.isEmpty
  | c :: cs => isPrefixList needle (c :: cs) || isInfixList needle cs

/-- Python `needle in hay` on strings: substring test. -/
def containsSub (hay needle : String) : Bool :=
  isInfixList needle.toList hay.toList

/-- Drop leading whitespace characters. -/
def dropWhileWs : List Char → List Char
  | [] => []
  | c :: cs => if c.isWhitespace then dropWhileWs cs else c :: cs

/-- Python `str.strip()`: remove leading and trailing whitespace. -/
def pyStrip (s : String) : String :=
  ⟨(dropWhileWs (dropWhileWs s.toList).reverse).reverse⟩

/-- Python `str.startswith(pre)`. -/
def pyStartsWith (s pre : String) : Bool :=
  isPrefixList pre.toList s.toList

/-- Python `str.lower()` (ASCII case folding suffices here). -/
def pyLower (s : String) : String :=
  ⟨s.toList.map Char.toLower⟩

/-- Python dict insertion into an insertion-ordered association list:
an existing key keeps its position and gets the new value, a new key is
appended at the end. -/
def dictInsert {α : Type} (k : String) (v : α) : List (String × α) → List (String × α)
  | [] => [(k, v)]
  | (k', v') :: rest => if k' = k then (k, v) :: rest else (k', v') :: dictInsert k v rest

/-- Outcome of touching one glob-matched file, see the module comment. -/
inductive FileData (α : Type) where
  | openError : FileData α
  | parseError : FileData α
  | ok : α → FileData α
deriving DecidableEq, Repr

/-- A glob-matched file: path relative to the project root (the source stores
`str(file.relative_to(self.project_path))`) and what touching it yields. -/
structure SrcFile (α : Type) where
  relPath : String
  data : FileData α
deriving DecidableEq, Repr

/-! ### Schema pass (`_find_database_schemas`) -/

/-- One `ast.AnnAssign` in a class body: `targetId = some id` when the target
is a plain name (has `.id`); `none` makes `child.target.id` raise. -/
structure AnnAssignNode where
  targetId : Option String
  annText : String
deriving DecidableEq, Repr

/-- A statement in a class body, as far as the source inspects it. -/
inductive ClassBodyStmt where
  | annAssign : AnnAssignNode → ClassBodyStmt
  | other : ClassBodyStmt
deriving DecidableEq, Repr

/-- An `ast.ClassDef`: name, bases (`some id` for `ast.Name` bases), body. -/
structure ClassDef where
  cname : String
  bases : List (Option String)
  body : List ClassBodyStmt
deriving DecidableEq, Repr

/-- One extracted field: `{"name": ..., "type": ...}`. -/
structure FieldInfo where
  fname : String
  ftype : String
deriving DecidableEq, Repr

/-- One schema record value: `{"fields": ..., "file": ...}`. -/
structure SchemaEntry where
  fields : List FieldInfo
  file : String
deriving DecidableEq, Repr

/-- The `db_schemas` dict. -/
abbrev Schemas := List (String × SchemaEntry)

/-- `any(base.id in ['Model', 'BaseModel'] for base in node.bases if
isinstance(base, ast.Name))`. -/
def isModelClass (c : ClassDef) : Bool :=
  c.bases.any fun b => b = some "Model" || b = some "BaseModel"

/-- The field-collection loop of the schema pass; `none` models the
`AttributeError` raised by `child.target.id` on a non-name target. -/
def collectFields : List ClassBodyStmt → Option (List FieldInfo)
  | [] => some []
  | .other :: rest => collectFields rest
  | .annAssign a :: rest =>
    match a.targetId with
    | none => none
    | some n => (collectFields rest).map (fun fs => ⟨n, a.annText⟩ :: fs)

/-- Walk the class definitions of one parsed model file.  An `AttributeError`
during field collection is caught by the file-level `except`, so the state
accumulated from earlier classes of the same file is kept and the rest of the
file is skipped. -/
def processClasses (s : Schemas) (relPath : String) : List ClassDef → Schemas
  | [] => s
  | c :: rest =>
    if isModelClass c then
      match collectFields c.body with
      | none => s
      | some fs => processClasses (dictInsert c.cname ⟨fs, relPath⟩ s) relPath rest
    else processClasses s relPath rest

/-- `_find_database_schemas`, folded over the glob-matched model files.
`Except.error s` means an exception escaped the pass (an `open` failure)
with accumulated state `s`. -/
def findDatabaseSchemas (s : Schemas) : List (SrcFile (List ClassDef)) → Except Schemas Schemas
  | [] => .ok s
  | f :: rest =>
    match f.data with
    | .openError => .error s
    | .parseError => findDatabaseSchemas s rest
    | .ok classes => findDatabaseSchemas (processClasses s f.relPath classes) rest

/-! ### Endpoint pass (`_find_api_endpoints`) -/

/-- A decorator callee: its `ast.unparse` text and its `.attr` when the callee
is an `ast.Attribute`. -/
structure Callee where
  text : String
  attr : Option String
deriving DecidableEq, Repr

/-- A decorator: a call with callee and positional args, or a non-call
(skipped by the `isinstance(decorator, ast.Call)` check).  An argument is
`some s` when `ast.literal_eval` succeeds (with `s` its rendered value),
`none` when it raises. -/
inductive Decorator where
  | call : Callee → List (Option String) → Decorator
  | nonCall : Decorator
deriving DecidableEq, Repr

/-- An `ast.FunctionDef`: name and decorator list. -/
structure FuncDef where
  fname : String
  decorators : List Decorator
deriving DecidableEq, Repr

/-- One endpoint record value: `{"function": ..., "file": ...}`. -/
structure EndpointEntry where
  function : String
  file : String
deriving DecidableEq, Repr

/-- The `api_specs` dict. -/
abbrev Specs := List (String × EndpointEntry)

/-- `any(name in ast.unparse(decorator.func) for name in
['route', 'get', 'post', 'put', 'delete'])`. -/
def qualifies (c : Callee) : Bool :=
  ["route", "get", "post", "put", "delete"].any fun n => containsSub c.text n

/-- `decorator.func.attr if hasattr(decorator.func, 'attr') else 'GET'`. -/
def methodOf (c : Callee) : String := c.attr.getD "GET"

/-- `ast.literal_eval(decorator.args[0]) if decorator.args else "/"`;
only applied under the hypothesis that the head argument is a literal. -/
def routeOf : List (Option String) → String
  | [] => "/"
  | some r :: _ => r
  | none :: _ => ""

/-- The decorator loop of one function.  A `literal_eval` failure
(`none` head argument) raises; the `Except.error` is caught at file level,
keeping the insertions already made. -/
def processDecorators (s : Specs) (relPath fn : String) : List Decorator → Except Specs Specs
  | [] => .ok s
  | .nonCall :: rest => processDecorators s relPath fn rest
  | .call c args :: rest =>
    if qualifies c then
      match args with
      | [] => processDecorators (dictInsert (methodOf c ++ " " ++ "/") ⟨fn, relPath⟩ s) relPath fn rest
      | some r :: _ =>
        processDecorators (dictInsert (methodOf c ++ " " ++ r) ⟨fn, relPath⟩ s) relPath fn rest
      | none :: _ => .error s
    else processDecorators s relPath fn rest

/-- Walk the function definitions of one parsed route file; an exception
from a decorator is caught by the file-level `except`, keeping the state and
skipping the rest of the file. -/
def processFuncs (s : Specs) (relPath : String) : List FuncDef → Specs
  | [] => s
  | f :: rest =>
    match processDecorators s relPath f.fname f.decorators with
    | .error s' => s'
    | .ok s' => processFuncs s' relPath rest

/-- `_find_api_endpoints`, folded over the glob-matched route files. -/
def findApiEndpoints (s : Specs) : List (SrcFile (List FuncDef)) → Except Specs Specs
  | [] => .ok s
  | f :: rest =>
    match f.data with
    | .openError => .error s
    | .parseError => findApiEndpoints s rest
    | .ok funcs => findApiEndpoints (processFuncs s f.relPath funcs) rest

/-! ### Frontend pass (`_find_frontend_components`) -/

/-- One component record value: `{"type": "component", "file": ...}`. -/
structure ComponentEntry where
  ctype : String
  file : String
deriving DecidableEq, Repr

/-- The `frontend_components` dict together with the `routes` list. -/
structure FrontState where
  comps : List (String × ComponentEntry)
  routes : List String
deriving DecidableEq, Repr

/-- A glob-matched frontend file: stem, suffix (with the leading dot, as
`Path.suffix` yields), relative path, and the text read from it. -/
structure FrontFile where
  stem : String
  ext : String
  relPath : String
  data : FileData String
deriving DecidableEq, Repr

/-- The per-file body of `_find_frontend_components`.  Only `.tsx`/`.jsx` and
`.vue` files are opened; every other suffix falls through both branches
untouched.  The route-list append is nested inside the component check. -/
def processFrontFile (st : FrontState) (f : FrontFile) : Except FrontState FrontState :=
  if f.ext = ".tsx" ∨ f.ext = ".jsx" then
    match f.data with
    | .openError => .error st
    | .parseError => .ok st
    | .ok content =>
      if containsSub content "export default" || containsSub content "React.FC" then
        if containsSub content "Route" || containsSub content "Routes" then
          .ok ⟨dictInsert f.stem ⟨"component", f.relPath⟩ st.comps, st.routes ++ [f.relPath]⟩
        else .ok ⟨dictInsert f.stem ⟨"component", f.relPath⟩ st.comps, st.routes⟩
      else .ok st
  else if f.ext = ".vue" then
    match f.data with
    | .openError => .error st
    | .parseError => .ok st
    | .ok content =>
      if containsSub content "<template>" then
        .ok ⟨dictInsert f.stem ⟨"component", f.relPath⟩ st.comps, st.routes⟩
      else .ok st
  else .ok st

/-- `_find_frontend_components`, folded over the glob-matched files. -/
def findFrontendComponents (st : FrontState) : List FrontFile → Except FrontState FrontState
  | [] => .ok st
  | f :: rest =>
    match processFrontFile st f with
    | .error st' => .error st'
    | .ok st' => findFrontendComponents st' rest

/-! ### Dependency pass (`_find_dependencies`) -/

/-- Parsed `package.json`: `data.get("dependencies", {})` and
`data.get("devDependencies", {})`; `none` models an absent key. -/
structure PkgJson where
  dependencies : Option (List (String × String))
  devDependencies : Option (List (String × String))
deriving DecidableEq, Repr

/-- Per-ecosystem payload stored in the `dependencies` dict. -/
inductive DepPayload where
  | npm : List (String × String) → List (String × String) → DepPayload
  | pip : List String → DepPayload
  | poetry : String → String → DepPayload
deriving DecidableEq, Repr

/-- The `dependencies` dict. -/
abbrev Deps := List (String × DepPayload)

/-- A candidate root file: absent (`exists()` false), unreadable (`open`
raises, outside any `try`), a read/parse failure inside the `try`, or its
parsed/raw content. -/
inductive RootFile (α : Type) where
  | absent : RootFile α
  | unreadable : RootFile α
  | readFail : RootFile α
  | ok : α → RootFile α
deriving DecidableEq, Repr

/-- The four exact-named candidate files at the project root, in the fixed
iteration order of the source's `package_files` list.  `requirements.txt`
content is the list of raw lines. -/
structure DepInputs where
  packageJson : RootFile PkgJson
  requirementsTxt : RootFile (List String)
  pyprojectToml : RootFile String
  poetryLock : RootFile String
deriving DecidableEq, Repr

/-- `[line.strip() for line in f if line.strip() and not line.startswith("#")]`:
note the `startswith` test is on the raw, untrimmed line. -/
def pipFilter (lines : List String) : List String :=
  (lines.filter fun l => pyStrip l ≠ "" && !(pyStartsWith l "#")).map pyStrip

/-- Handling of one candidate root file: skip if absent, raise past the pass
if `open` fails, skip silently on a caught read/parse failure, otherwise
insert the payload under the ecosystem key. -/
def processRootFile {α : Type} (d : Deps) (rf : RootFile α) (key : String)
    (mk : α → DepPayload) : Except Deps Deps :=
  match rf with
  | .absent => .ok d
  | .unreadable => .error d
  | .readFail => .ok d
  | .ok a => .ok (dictInsert key (mk a) d)

/-- `_find_dependencies`: the four candidates processed in fixed order. -/
def findDependencies (d : Deps) (i : DepInputs) : Except Deps Deps :=
  match processRootFile d i.packageJson "npm"
      (fun p => .npm (p.dependencies.getD []) (p.devDependencies.getD [])) with
  | .error s => .error s
  | .ok d1 =>
    match processRootFile d1 i.requirementsTxt "pip" (fun ls => .pip (pipFilter ls)) with
    | .error s => .error s
    | .ok d2 =>
      match processRootFile d2 i.pyprojectToml "poetry" (fun c => .poetry "pyproject.toml" c) with
      | .error s => .error s
      | .ok d3 => processRootFile d3 i.poetryLock "poetry" (fun c => .poetry "poetry.lock" c)

/-! ### Blueprint assembly (`_generate_blueprint`) and `analyze` -/

/-- The fixed OpenAPI operation stub placed under each path/method. -/
structure OpenApiOp where
  summary : String
  operationId : String
deriving DecidableEq, Repr

/-- The content payload of one blueprint value, modelled structurally
(the source renders the `yaml`-tagged ones with `yaml.dump`, a pure function
of the data). -/
inductive DocContent where
  | yamlPm : String → String → DocContent
  | yamlSchemas : Schemas → DocContent
  | openapiDoc : String → String → List (String × String × OpenApiOp) → DocContent
  | yamlSitemap : List String → List (String × ComponentEntry) → DocContent
  | yamlPackage : Deps → DocContent
deriving DecidableEq, Repr

/-- One blueprint value: its `"type"` discriminator and content. -/
structure DocEntry where
  dtype : String
  content : DocContent
deriving DecidableEq, Repr

/-- `endpoint.split()[0]`: first whitespace-separated token (the keys built
by the endpoint pass always have a non-empty method before the space). -/
def firstToken (s : String) : String :=
  ⟨(dropWhileWs s.toList).takeWhile (fun c => !c.isWhitespace)⟩

/-- The `paths` dict comprehension: one entry per endpoint key, carrying
`method.lower()` and the fixed stub built from the handler name. -/
def openapiPaths (specs : Specs) : List (String × String × OpenApiOp) :=
  specs.map fun p => (p.1, (pyLower (firstToken p.1), ⟨p.2.function, p.2.function⟩))

/-- `_generate_blueprint`, from the accumulated records plus
`str(self.project_path)` and `self.project_path.name`. -/
def generateBlueprint (schemas : Schemas) (specs : Specs) (front : FrontState)
    (deps : Deps) (projPath projName : String) : List (String × DocEntry) :=
  [ ("pm.details", ⟨"yaml", .yamlPm projPath "auto-generated from existing project"⟩),
    ("db.schemas", ⟨"yaml", .yamlSchemas schemas⟩),
    ("backend.specifications.openapi",
      ⟨"complex", .openapiDoc (projName ++ " API") "1.0.0" (openapiPaths specs)⟩),
    ("uxsitemap.structure", ⟨"yaml", .yamlSitemap front.routes front.comps⟩),
    ("settings.config.package", ⟨"yaml", .yamlPackage deps⟩) ]

/-- A project directory as the four passes see it: the glob-matched file
lists of each pass in traversal order, the root dependency candidates, and
the two path-derived strings used by the assembler. -/
structure ProjectTree where
  modelFiles : List (SrcFile (List ClassDef))
  apiFiles : List (SrcFile (List FuncDef))
  frontFiles : List FrontFile
  deps : DepInputs
  projPath : String
  projName : String
deriving DecidableEq, Repr

/-- `ProjectAnalyzer(path).analyze()`: run the four passes from fresh empty
records and assemble the blueprint; `none` when an uncaught exception from a
pass propagates to the caller instead of returning a document. -/
def analyze (t : ProjectTree) : Option (List (String × DocEntry)) :=
  match findDatabaseSchemas [] t.modelFiles with
  | .error _ => none
  | .ok schemas =>
    match findApiEndpoints [] t.apiFiles with
    | .error _ => none
    | .ok specs =>
      match findFrontendComponents ⟨[], []⟩ t.frontFiles with
      | .error _ => none
      | .ok front =>
        match findDependencies [] t.deps with
        | .error _ => none
        | .ok deps => some (generateBlueprint schemas specs front deps t.projPath t.projName)

/-- The pip line filter as the spec sentence words it, for refinement
comparison with `pipFilter`: keep lines that are non-empty after trimming
and whose TRIMMED form does not start with `#`, each trimmed, in file
order.  (The source instead tests `startswith("#")` on the raw line.) -/
def specPipFilter (lines : List String) : List String :=
  (lines.filter fun l => pyStrip l ≠ "" && !(pyStartsWith (pyStrip l) "#")).map pyStrip

/-! ### Helper lemmas -/

theorem findDatabaseSchemas_ok (s : Schemas) (fs : List (SrcFile (List ClassDef)))
    (h : ∀ f ∈ fs, f.data ≠ FileData.openError) :
    ∃ r, findDatabaseSchemas s fs = .ok r := by
  induction fs generalizing s with
  | nil => exact ⟨s, rfl⟩
  | cons f rest ih =>
    have hf := h f (List.mem_cons_self f rest)
    have hrest : ∀ g ∈ rest, g.data ≠ FileData.openError :=
      fun g hg => h g (List.mem_cons_of_mem f hg)
    cases hd : f.data with
    | openError => exact absurd hd hf
    | parseError =>
      obtain ⟨r, hr⟩ := ih s hrest
      exact ⟨r, by simpa [findDatabaseSchemas, hd] using hr⟩
    | ok classes =>
      obtain ⟨r, hr⟩ := ih (processClasses s f.relPath classes) hrest
      exact ⟨r, by simpa [findDatabaseSchemas, hd] using hr⟩

theorem findApiEndpoints_ok (s : Specs) (fs : List (SrcFile (List FuncDef)))
    (h : ∀ f ∈ fs, f.data ≠ FileData.openError) :
    ∃ r, findApiEndpoints s fs = .ok r := by
  induction fs generalizing s with
  | nil => exact ⟨s, rfl⟩
  | cons f rest ih =>
    have hf := h f (List.mem_cons_self f rest)
    have hrest : ∀ g ∈ rest, g.data ≠ FileData.openError :=
      fun g hg => h g (List.mem_cons_of_mem f hg)
    cases hd : f.data with
    | openError => exact absurd hd hf
    | parseError =>
      obtain ⟨r, hr⟩ := ih s hrest
      exact ⟨r, by simpa [findApiEndpoints, hd] using hr⟩
    | ok funcs =>
      obtain ⟨r, hr⟩ := ih (processFuncs s f.relPath funcs) hrest
      exact ⟨r, by simpa [findApiEndpoints, hd] using hr⟩

theorem processFrontFile_ok (st : FrontState) (f : FrontFile)
    (h : f.data ≠ FileData.openError) :
    ∃ st', processFrontFile st f = .ok st' := by
  obtain ⟨stem, ext, rp, data⟩ := f
  cases data with
  | openError => exact absurd rfl h
  | parseError =>
    simp only [processFrontFile]
    repeat' split
    all_goals exact ⟨_, rfl⟩
  | ok content =>
    simp only [processFrontFile]
    repeat' split
    all_goals exact ⟨_, rfl⟩

theorem findFrontendComponents_ok (st : FrontState) (fs : List FrontFile)
    (h : ∀ f ∈ fs, f.data ≠ FileData.openError) :
    ∃ r, findFrontendComponents st fs = .ok r := by
  induction fs generalizing st with
  | nil => exact ⟨st, rfl⟩
  | cons f rest ih =>
    obtain ⟨st', hst'⟩ := processFrontFile_ok st f (h f (List.mem_cons_self f rest))
    obtain ⟨r, hr⟩ := ih st' (fun g hg => h g (List.mem_cons_of_mem f hg))
    exact ⟨r, by simpa [findFrontendComponents, hst'] using hr⟩

theorem findDependencies_ok (d : Deps) (i : DepInputs)
    (h1 : i.packageJson ≠ RootFile.unreadable)
    (h2 : i.requirementsTxt ≠ RootFile.unreadable)
    (h3 : i.pyprojectToml ≠ RootFile.unreadable)
    (h4 : i.poetryLock ≠ RootFile.unreadable) :
    ∃ r, findDependencies d i = .ok r := by
  obtain ⟨pj, rq, pt, pl⟩ := i
  cases pj <;> cases rq <;> cases pt <;> cases pl <;>
    first
      | exact absurd rfl h1
      | exact absurd rfl h2
      | exact absurd rfl h3
      | exact absurd rfl h4
      | exact ⟨_, rfl⟩

/-! ### Claim theorems -/

/-- C1, counterexample: the claim that no per-file failure raises past a
pass's boundary is false for unreadable files — `open(model_file)` sits
outside the `try`, so an open failure escapes the schema pass
(`Except.error`), aborting it instead of skipping the file. -/
theorem c1_counterexample :
    findDatabaseSchemas [] [⟨"app/models.py", FileData.openError⟩] = .error [] := rfl

/-- C1, amended: every pass is total over files whose `open` succeeds — a
read/parse/content failure inside the per-file `try` is swallowed and the
file skipped with previously accumulated results kept; only an `open`
failure (unreadable file) raises past the pass boundary. -/
theorem c1_passes_total_unless_open_fails
    (mfs : List (SrcFile (List ClassDef))) (afs : List (SrcFile (List FuncDef)))
    (ffs : List FrontFile) (di : DepInputs)
    (s1 : Schemas) (s2 : Specs) (st : FrontState) (d : Deps)
    (hm : ∀ f ∈ mfs, f.data ≠ FileData.openError)
    (ha : ∀ f ∈ afs, f.data ≠ FileData.openError)
    (hf : ∀ f ∈ ffs, f.data ≠ FileData.openError)
    (hd1 : di.packageJson ≠ RootFile.unreadable)
    (hd2 : di.requirementsTxt ≠ RootFile.unreadable)
    (hd3 : di.pyprojectToml ≠ RootFile.unreadable)
    (hd4 : di.poetryLock ≠ RootFile.unreadable) :
    ((∃ r, findDatabaseSchemas s1 mfs = .ok r) ∧
     (∃ r, findApiEndpoints s2 afs = .ok r) ∧
     (∃ r, findFrontendComponents st ffs = .ok r) ∧
     (∃ r, findDependencies d di = .ok r)) ∧
    ((∀ p rest, findDatabaseSchemas s1 (⟨p, FileData.parseError⟩ :: rest) =
        findDatabaseSchemas s1 rest) ∧
     (∀ p rest, findApiEndpoints s2 (⟨p, FileData.parseError⟩ :: rest) =
        findApiEndpoints s2 rest) ∧
     (∀ f : FrontFile, f.data = FileData.parseError → processFrontFile st f = .ok st)) := by
  refine ⟨⟨findDatabaseSchemas_ok s1 mfs hm, findApiEndpoints_ok s2 afs ha,
    findFrontendComponents_ok st ffs hf, findDependencies_ok d di hd1 hd2 hd3 hd4⟩,
    fun p rest => rfl, fun p rest => rfl, fun f hfd => ?_⟩
  obtain ⟨stem, ext, rp, data⟩ := f
  cases hfd
  simp only [processFrontFile]
  repeat' split
  all_goals rfl

/-- C1, witness of the amended theorem at a concrete project: one model file
whose parse fails, no other matched files, no root dependency files. -/
theorem c1_witness :
    ((∃ r, findDatabaseSchemas [] [⟨"app/models.py", FileData.parseError⟩] = .ok r) ∧
     (∃ r, findApiEndpoints [] [] = .ok r) ∧
     (∃ r, findFrontendComponents ⟨[], []⟩ [] = .ok r) ∧
     (∃ r, findDependencies [] ⟨.absent, .absent, .absent, .absent⟩ = .ok r)) ∧
    ((∀ p rest, findDatabaseSchemas [] (⟨p, FileData.parseError⟩ :: rest) =
        findDatabaseSchemas [] rest) ∧
     (∀ p rest, findApiEndpoints [] (⟨p, FileData.parseError⟩ :: rest) =
        findApiEndpoints [] rest) ∧
     (∀ f : FrontFile, f.data = FileData.parseError →
        processFrontFile ⟨[], []⟩ f = .ok ⟨[], []⟩)) :=
  c1_passes_total_unless_open_fails [⟨"app/models.py", FileData.parseError⟩] [] []
    ⟨.absent, .absent, .absent, .absent⟩ [] [] ⟨[], []⟩ []
    (by decide) (by decide) (by decide) (by decide) (by decide) (by decide) (by decide)

/-- C2, counterexample: a function decorated `@app.get("/users")` is recorded
under the key `"get /users"` — the method is the callee's attribute name
verbatim — so no entry exists under the claimed key `"GET /users"`. -/
theorem c2_counterexample :
    findApiEndpoints []
        [⟨"routes.py",
          FileData.ok [⟨"list_users", [Decorator.call ⟨"app.get", some "get"⟩ [some "/users"]]⟩]⟩] =
      .ok [("get /users", ⟨"list_users", "routes.py"⟩)] ∧
    List.lookup "GET /users"
        [("get /users", (⟨"list_users", "routes.py"⟩ : EndpointEntry))] = none :=
  ⟨rfl, rfl⟩

/-- C2, amended: a qualifying decorator whose callee is an attribute access
with name `m` and whose first positional argument is the literal `r` records
the endpoint under the key `m ++ " " ++ r` (the attribute name verbatim, not
uppercased); the default key prefix `GET` arises only for callees without an
attribute. -/
theorem c2_attr_decorator_records_attr_key
    (s : Specs) (p fn m r : String) (c : Callee) (args' : List (Option String))
    (rest : List Decorator) (hq : qualifies c = true) (hm : c.attr = some m) :
    processDecorators s p fn (Decorator.call c (some r :: args') :: rest) =
      processDecorators (dictInsert (m ++ " " ++ r) ⟨fn, p⟩ s) p fn rest := by
  simp [processDecorators, hq, methodOf, hm]

/-- C2, witness: the amended theorem at `@app.get("/users")` on
`list_users` in `routes.py`. -/
theorem c2_witness :
    processDecorators [] "routes.py" "list_users"
        [Decorator.call ⟨"app.get", some "get"⟩ [some "/users"]] =
      processDecorators (dictInsert ("get" ++ " " ++ "/users")
        ⟨"list_users", "routes.py"⟩ []) "routes.py" "list_users" [] :=
  c2_attr_decorator_records_attr_key [] "routes.py" "list_users" "get" "/users"
    ⟨"app.get", some "get"⟩ [] [] (by decide) rfl

/-- C5, counterexample: a function carrying a qualifying decorator whose
first positional argument is not a literal gets no endpoint entry —
`ast.literal_eval` raises and the file-level `except` skips the rest of the
file, so the pass returns an empty record. -/
theorem c5_counterexample :
    findApiEndpoints []
        [⟨"routes.py",
          FileData.ok [⟨"handler", [Decorator.call ⟨"app.get", some "get"⟩ [none]]⟩]⟩] =
      .ok [] := rfl

/-- C5, amended: a qualifying decorator with either no positional arguments
or a literal first positional argument yields exactly one insertion with
path from the first argument (default `/`) and method from the callee's
attribute name (default `GET`); a non-literal first argument instead raises,
skipping the rest of the file while keeping earlier insertions. -/
theorem c5_qualifying_decorator_inserts
    (s : Specs) (p fn : String) (c : Callee) (args : List (Option String))
    (rest : List Decorator) (hq : qualifies c = true)
    (ha : args = [] ∨ ∃ r args', args = some r :: args') :
    processDecorators s p fn (Decorator.call c args :: rest) =
      processDecorators (dictInsert (methodOf c ++ " " ++ routeOf args) ⟨fn, p⟩ s)
        p fn rest := by
  rcases ha with h | ⟨r, args', h⟩ <;> subst h <;> simp [processDecorators, hq, routeOf]

/-- C5, witness: the amended theorem at a bare `@route()` decorator with no
arguments on `index` in `views.py`. -/
theorem c5_witness :
    processDecorators [] "views.py" "index" [Decorator.call ⟨"route", none⟩ []] =
      processDecorators (dictInsert (methodOf ⟨"route", none⟩ ++ " " ++ routeOf [])
        ⟨"index", "views.py"⟩ []) "views.py" "index" [] :=
  c5_qualifying_decorator_inserts [] "views.py" "index" ⟨"route", none⟩ [] []
    (by decide) (Or.inl rfl)

/-- C7: one model file with invalid syntax (a caught parse failure) is
transparent to the schema pass — the result over any file list containing it
equals the result over the same list without it, so every qualifying class
of every other matched file is still recorded. -/
theorem c7_invalid_model_file_is_transparent
    (s : Schemas) (pre post : List (SrcFile (List ClassDef))) (p : String) :
    findDatabaseSchemas s (pre ++ ⟨p, FileData.parseError⟩ :: post) =
      findDatabaseSchemas s (pre ++ post) := by
  induction pre generalizing s with
  | nil => rfl
  | cons f rest ih =>
    cases hd : f.data <;> simp [findDatabaseSchemas, hd, ih]

/-- C10: files with suffix `.ts` (as matched by the `**/routes.ts` and
`**/router.ts` patterns) leave the frontend pass's state entirely unchanged:
the pass dispatches only on `.tsx`/`.jsx`/`.vue` and ignores every other
suffix without even opening the file. -/
theorem c10_ts_files_leave_state_unchanged (st : FrontState) (fs : List FrontFile)
    (h : ∀ f ∈ fs, f.ext = ".ts") :
    findFrontendComponents st fs = .ok st := by
  induction fs with
  | nil => rfl
  | cons f rest ih =>
    have hf : processFrontFile st f = .ok st := by
      have he := h f (List.mem_cons_self f rest)
      simp [processFrontFile, he]
    simp [findFrontendComponents, hf, ih (fun g hg => h g (List.mem_cons_of_mem f hg))]

/-- C10, witness: a `routes.ts` file whose text even contains `Routes` and
`export default` produces no component and no route entry. -/
theorem c10_witness :
    findFrontendComponents ⟨[], []⟩
        [⟨"routes", ".ts", "src/routes.ts", FileData.ok "export default <Routes/>"⟩] =
      .ok ⟨[], []⟩ :=
  c10_ts_files_leave_state_unchanged ⟨[], []⟩
    [⟨"routes", ".ts", "src/routes.ts", FileData.ok "export default <Routes/>"⟩] (by decide)

/-- C3, counterexample: a `.tsx` file whose text contains `Routes` but is not
classified as a component (no `export default`, no `React.FC`) is NOT
appended to the route list — the append is nested inside the component
check, so it is not independent of component classification. -/
theorem c3_counterexample :
    findFrontendComponents ⟨[], []⟩
        [⟨"router", ".tsx", "src/router.tsx", FileData.ok "<Routes/>"⟩] =
      .ok ⟨[], []⟩ := rfl

/-- C3, amended: for a `.tsx`/`.jsx` file, the route-list append happens only
when the file is also classified as a component; a file containing both
`export default` and `Routes` is classified as a component AND appended to
the route list, while a non-component file is never appended even when its
text contains `Route`/`Routes`. -/
theorem c3_route_append_requires_component
    (st : FrontState) (f : FrontFile) (content : String)
    (hext : f.ext = ".tsx" ∨ f.ext = ".jsx") (hdata : f.data = FileData.ok content) :
    ((containsSub content "export default" || containsSub content "React.FC") = true →
      (containsSub content "Route" || containsSub content "Routes") = true →
      processFrontFile st f =
        .ok ⟨dictInsert f.stem ⟨"component", f.relPath⟩ st.comps,
             st.routes ++ [f.relPath]⟩) ∧
    ((containsSub content "export default" || containsSub content "React.FC") = false →
      processFrontFile st f = .ok st) := by
  constructor
  · intro hcomp hroute
    rcases hext with h | h <;> simp [processFrontFile, h, hdata, hcomp, hroute]
  · intro hcomp
    rcases hext with h | h <;> simp [processFrontFile, h, hdata, hcomp]

/-- C3, witness of the amended theorem at a `.tsx` file containing both
`export default` and `Routes`. -/
theorem c3_witness :
    ((containsSub "export default <Routes/>" "export default" ||
        containsSub "export default <Routes/>" "React.FC") = true →
      (containsSub "export default <Routes/>" "Route" ||
        containsSub "export default <Routes/>" "Routes") = true →
      processFrontFile ⟨[], []⟩
          ⟨"app", ".tsx", "src/app.tsx", FileData.ok "export default <Routes/>"⟩ =
        .ok ⟨dictInsert "app" ⟨"component", "src/app.tsx"⟩ [], [] ++ ["src/app.tsx"]⟩) ∧
    ((containsSub "export default <Routes/>" "export default" ||
        containsSub "export default <Routes/>" "React.FC") = false →
      processFrontFile ⟨[], []⟩
          ⟨"app", ".tsx", "src/app.tsx", FileData.ok "export default <Routes/>"⟩ =
        .ok ⟨[], []⟩) :=
  c3_route_append_requires_component ⟨[], []⟩
    ⟨"app", ".tsx", "src/app.tsx", FileData.ok "export default <Routes/>"⟩
    "export default <Routes/>" (Or.inl rfl) rfl

/-- C4, counterexample: the line `"  # comment"` (comment with leading
whitespace) is kept by the code — `startswith("#")` is tested on the raw,
untrimmed line — while the claim's trimmed-form filter would drop it. -/
theorem c4_counterexample :
    findDependencies [] ⟨.absent, .ok ["  # comment"], .absent, .absent⟩ =
      .ok [("pip", DepPayload.pip ["# comment"])] ∧
    specPipFilter ["  # comment"] = [] :=
  ⟨rfl, rfl⟩

/-- C4, amended: when `requirements.txt` is read successfully (and no root
dependency file aborts the pass), the `pip` record holds exactly the lines
that are non-empty after trimming and whose RAW (untrimmed) form does not
start with `#`, each trimmed, in file order. -/
theorem c4_pip_record_filters_raw_lines
    (i : DepInputs) (lines : List String)
    (h : i.requirementsTxt = RootFile.ok lines)
    (h1 : i.packageJson ≠ RootFile.unreadable)
    (h3 : i.pyprojectToml ≠ RootFile.unreadable)
    (h4 : i.poetryLock ≠ RootFile.unreadable) :
    ∃ d, findDependencies [] i = .ok d ∧
      List.lookup "pip" d = some (DepPayload.pip (pipFilter lines)) := by
  obtain ⟨pj, rq, pt, pl⟩ := i
  cases pj <;> cases rq <;> cases pt <;> cases pl <;> cases h <;>
    first
      | exact absurd rfl h1
      | exact absurd rfl h3
      | exact absurd rfl h4
      | exact ⟨_, rfl, rfl⟩

/-- C4, witness of the amended theorem on a concrete requirements file. -/
theorem c4_witness :
    ∃ d, findDependencies []
        ⟨.absent, .ok ["  # c", "flask==1.0 ", "", "#top"], .absent, .absent⟩ = .ok d ∧
      List.lookup "pip" d =
        some (DepPayload.pip (pipFilter ["  # c", "flask==1.0 ", "", "#top"])) :=
  c4_pip_record_filters_raw_lines
    ⟨.absent, .ok ["  # c", "flask==1.0 ", "", "#top"], .absent, .absent⟩
    ["  # c", "flask==1.0 ", "", "#top"] rfl (by decide) (by decide) (by decide)

/-- C6: the extractor is a pure function of the scanned tree — two runs over
an unmodified (equal) project tree yield identical blueprint documents, in
particular identical route lists, records and rendered fields. -/
theorem c6_analyze_deterministic (t1 t2 : ProjectTree) (h : t1 = t2) :
    analyze t1 = analyze t2 := by rw [h]

/-- C6, witness: two runs over the same concrete tree agree. -/
theorem c6_witness :
    analyze ⟨[⟨"models.py", FileData.parseError⟩], [], [],
        ⟨.absent, .ok ["a"], .absent, .absent⟩, "/p", "p"⟩ =
      analyze ⟨[⟨"models.py", FileData.parseError⟩], [], [],
        ⟨.absent, .ok ["a"], .absent, .absent⟩, "/p", "p"⟩ :=
  c6_analyze_deterministic _ _ rfl

/-- C8: a project in which no file matches any pass's patterns yields a
blueprint with exactly the five fixed top-level keys, in order, each with
empty/default-shaped content (empty schema/component/dependency mappings,
empty route list, empty OpenAPI paths). -/
theorem c8_empty_tree_blueprint (projPath projName : String) :
    analyze ⟨[], [], [], ⟨.absent, .absent, .absent, .absent⟩, projPath, projName⟩ =
      some [("pm.details", ⟨"yaml", .yamlPm projPath "auto-generated from existing project"⟩),
        ("db.schemas", ⟨"yaml", .yamlSchemas []⟩),
        ("backend.specifications.openapi",
          ⟨"complex", .openapiDoc (projName ++ " API") "1.0.0" []⟩),
        ("uxsitemap.structure", ⟨"yaml", .yamlSitemap [] []⟩),
        ("settings.config.package", ⟨"yaml", .yamlPackage []⟩)] := rfl

/-- C9: when both `pyproject.toml` and `poetry.lock` are present and read
successfully (and neither remaining root candidate aborts the pass), the
`poetry` record holds the file name and raw content of `poetry.lock`, which
is processed after `pyproject.toml` and overwrites its entry. -/
theorem c9_poetry_lock_overwrites_pyproject
    (i : DepInputs) (c1 c2 : String)
    (h1 : i.pyprojectToml = RootFile.ok c1) (h2 : i.poetryLock = RootFile.ok c2)
    (h3 : i.packageJson ≠ RootFile.unreadable)
    (h4 : i.requirementsTxt ≠ RootFile.unreadable) :
    ∃ d, findDependencies [] i = .ok d ∧
      List.lookup "poetry" d = some (DepPayload.poetry "poetry.lock" c2) := by
  obtain ⟨pj, rq, pt, pl⟩ := i
  cases pj <;> cases rq <;> cases pt <;> cases pl <;> cases h1 <;> cases h2 <;>
    first
      | exact absurd rfl h3
      | exact absurd rfl h4
      | exact ⟨_, rfl, rfl⟩

/-- C9, witness at concrete pyproject/lock contents. -/
theorem c9_witness :
    ∃ d, findDependencies []
        ⟨.absent, .absent, .ok "[tool.poetry]", .ok "lock-content"⟩ = .ok d ∧
      List.lookup "poetry" d = some (DepPayload.poetry "poetry.lock" "lock-content") :=
  c9_poetry_lock_overwrites_pyproject
    ⟨.absent, .absent, .ok "[tool.poetry]", .ok "lock-content"⟩
    "[tool.poetry]" "lock-content" rfl rfl (by decide) (by decide)
